import Mathlib

/-!
Verification development for the prequel-compiler rule compiler.

This file gives a shallow embedding of the core of the two-stage tree
builder (parse-tree builder in `pkg/parser/tree.go`, AST builder in
`pkg/ast`) and proves the specification claims about it.

Conventions of the embedding:
* Go error returns become `Except ErrT`.  Positional error wrapping
  (`pqerr.Wrap`) only attaches line/column/rule-identity context around the
  sentinel cause and is not modelled; errors are identified by sentinel.
* `time.Duration` (int64 nanoseconds) is modelled as `Int`.
* Go nil-able slices and pointers become `Option`.
* yaml source positions are dropped; where the code consults the raw yaml
  skeleton for key presence (`findChild`) the relevant presence bits are
  passed as booleans.
* Recursion through the terms index has no cycle guard in the source
  (spec section 4.2.5), so the recursive builders take explicit fuel; the
  distinguished sentinel `outOfFuel` models the unbounded recursion and is
  never produced on inputs the source terminates on (witnesses use ample
  fuel).
-/

/-- Error sentinels of `pkg/parser` (tree.go) and `pkg/ast`.  The
`durationParse` case stands for a raw `time.ParseDuration` error, which
`negateOpts` propagates unwrapped. -/
inductive ErrT where
  | ruleNotFound
  | ruleRootNotFound
  | notSupported
  | termNotFound
  | missingOrder
  | missingMatch
  | invalidWindow
  | termsMapping
  | duplicateTerm
  | missingRuleId
  | missingRuleHash
  | missingCreId
  | invalidCreId
  | invalidRuleId
  | invalidRuleHash
  | extractName
  | unknownField
  | unknownSrc
  | seqPosConditions
  | missingScalar
  | invalidNodeType
  | durationParse
  | outOfFuel
  deriving DecidableEq, Repr

/-! ## Schema constants (pkg/schema/schema.go) -/

def nodeTypeSeq : String := "machine_seq"
def nodeTypeSet : String := "machine_set"
def nodeTypeLogSeq : String := "log_seq"
def nodeTypeLogSet : String := "log_set"
def nodeTypePromQL : String := "promql"

def eventTypeK8s : String := "k8s"

def fieldK8sEventReason : String := "reason"
def fieldK8sEventType : String := "type"
def fieldK8sEventReasonDetail : String := "reasonDetail"

def scopeCluster : String := "cluster"
def scopeNode : String := "node"

/-! ## Identifier validation regexes (tree.go)

`validCreIdRegex     = ^[A-Za-z0-9-]{4,}$`
`validBase58IdRegex  = ^[1-9A-Za-z]{12,}$`
`validateExtractName = ^[A-Za-z][A-Za-z0-9_]*$` -/

def isBase58Char (c : Char) : Bool :=
  (('1' ≤ c && c ≤ '9') || ('A' ≤ c && c ≤ 'Z') || ('a' ≤ c && c ≤ 'z'))

def isCreIdChar (c : Char) : Bool :=
  (('0' ≤ c && c ≤ '9') || ('A' ≤ c && c ≤ 'Z') || ('a' ≤ c && c ≤ 'z') || c = '-')

def isValidBase58Id (s : String) : Bool :=
  s.length ≥ 12 && s.data.all isBase58Char

def isValidCreId (s : String) : Bool :=
  s.length ≥ 4 && s.data.all isCreIdChar

def isValidExtractName (s : String) : Bool :=
  match s.data with
  | [] => false
  | c :: cs =>
    (('A' ≤ c && c ≤ 'Z') || ('a' ≤ c && c ≤ 'z')) &&
      cs.all (fun d => ('A' ≤ d && d ≤ 'Z') || ('a' ≤ d && d ≤ 'z') ||
                       ('0' ≤ d && d ≤ '9') || d = '_')

/-! ## Duration parsing

Modelled from the spec: `time.ParseDuration` is a Go standard-library
collaborator (spec section 9: accept the common human durations
`ns, us, ms, s, m, h`).  Modelled for single-component durations
`<digits><unit>` plus the literal `"0"`; the result is nanoseconds. -/

def unitNanos : String → Option Int
  | "ns" => some 1
  | "us" => some 1000
  | "ms" => some 1000000
  | "s" => some 1000000000
  | "m" => some 60000000000
  | "h" => some 3600000000000
  | _ => none

def digitsToNat (cs : List Char) : Nat :=
  cs.foldl (fun a c => a * 10 + (c.toNat - '0'.toNat)) 0

def parseDuration (s : String) : Option Int :=
  if s = "0" then some 0
  else
    let digits := s.data.takeWhile Char.isDigit
    let unit := String.mk (s.data.drop digits.length)
    if digits.isEmpty then none
    else match unitNanos unit with
      | some u => some ((digitsToNat digits : Int) * u)
      | none => none

/-! ## Parse-tree output types (tree.go) -/

/-- Go `pqerr.Pos` and yaml positions are dropped; see module docstring. -/
structure EventT where
  origin : Bool
  source : String
  deriving DecidableEq, Repr

/-- Go `NegateOptsT` with durations already parsed (`time.Duration` as `Int`,
`Anchor uint32` as `Nat`). -/
structure NegateOptsT where
  window : Int
  slide : Int
  anchor : Nat
  absolute : Bool
  deriving DecidableEq, Repr

structure ExtractT where
  name : String
  jqValue : String
  regexValue : String
  deriving DecidableEq, Repr

structure FieldT where
  field : String
  strValue : String
  jqValue : String
  regexValue : String
  count : Int
  negateOpts : Option NegateOptsT
  extract : List ExtractT
  deriving DecidableEq, Repr

structure TermsT where
  fields : List FieldT
  deriving DecidableEq, Repr

structure MatcherT where
  matchF : TermsT
  negate : TermsT
  window : Int
  deriving DecidableEq, Repr

/-- Go `NodeMetadataT`; `Type` is the Go string-typed `schema.NodeTypeT`
(zero value `""` before assignment).  `Pos` is dropped. -/
structure NodeMetadataT where
  ruleHash : String
  ruleId : String
  creId : String
  window : Int
  event : Option EventT
  type : String
  correlations : Option (List String)
  negateOpts : Option NegateOptsT
  deriving DecidableEq, Repr

/-! Go `NodeT.Children` is `[]any` in Go, holding either `*NodeT` or
`*MatcherT` (spec section 9: a tagged union). -/
mutual
inductive NodeT where
  | mk (metadata : NodeMetadataT) (negIdx : Int) (children : List ChildT)
  deriving Repr
inductive ChildT where
  | node (n : NodeT)
  | matcher (m : MatcherT)
  deriving Repr
end

def NodeT.metadata : NodeT → NodeMetadataT
  | .mk m _ _ => m

def NodeT.negIdx : NodeT → Int
  | .mk _ i _ => i

def NodeT.children : NodeT → List ChildT
  | .mk _ _ c => c

def NodeT.withMetadata : NodeT → NodeMetadataT → NodeT
  | .mk _ i c, m => .mk m i c

def NodeT.withNegIdx : NodeT → Int → NodeT
  | .mk m _ c, i => .mk m i c

def NodeT.withChildren : NodeT → List ChildT → NodeT
  | .mk m i _, c => .mk m i c

/-! ## AST output types (pkg/ast)

`match.TermT` comes from the external `prequel-logmatch` package; its
`Type` enumerates raw / jq-json / regex term kinds (spec section 4.3.2). -/

inductive TermTypeT where
  | raw
  | jqJson
  | regex
  deriving DecidableEq, Repr

structure TermT where
  type : TermTypeT
  value : String
  deriving DecidableEq, Repr

structure AstNegateOptsT where
  window : Int
  slide : Int
  anchor : Nat
  absolute : Bool
  deriving DecidableEq, Repr

structure AstFieldT where
  field : String
  termValue : TermT
  negateOpts : Option AstNegateOptsT
  deriving DecidableEq, Repr

structure AstEventT where
  origin : Bool
  source : String
  deriving DecidableEq, Repr

structure AstLogMatcherT where
  event : AstEventT
  matchF : List AstFieldT
  negate : List AstFieldT
  window : Int
  deriving DecidableEq, Repr

/-! ## AST validation (pkg/ast, second document of ast_test.go) -/

/-- Go `validateLogSeq(n *parser.NodeT, matches int)` (the Go parameter
`matches` is spelled `matchCount` here). -/
def validateLogSeq (n : NodeT) (matchCount : Int) : Except ErrT Unit :=
  if matchCount ≤ 1 then .error .seqPosConditions
  else if n.metadata.window = 0 then .error .invalidWindow
  else .ok ()

/-- Go `validateLogSet(n *parser.NodeT, matches int)`. -/
def validateLogSet (n : NodeT) (matchCount : Int) : Except ErrT Unit :=
  -- Only one positive condition with a window is not allowed
  if matchCount = 1 ∧ n.metadata.window ≠ 0 then .error .invalidWindow
  -- More than one positive condition with no window is not allowed
  else if matchCount > 1 ∧ n.metadata.window = 0 then .error .invalidWindow
  else .ok ()

/-- Go `knownSrcField(src string, field parser.FieldT)`: for the `k8s` source
and an allow-listed field name, synthesize a jq term
`select(.<field> == "<value>")` from the field's `StrValue`. -/
def knownSrcField (src : String) (field : FieldT) : Except ErrT AstFieldT :=
  if src = eventTypeK8s then
    if field.field = fieldK8sEventReason then
      .ok { field := field.field,
            termValue := { type := .jqJson,
                           value := "select(." ++ fieldK8sEventReason ++ " == \"" ++ field.strValue ++ "\")" },
            negateOpts := none }
    else if field.field = fieldK8sEventType then
      .ok { field := field.field,
            termValue := { type := .jqJson,
                           value := "select(." ++ fieldK8sEventType ++ " == \"" ++ field.strValue ++ "\")" },
            negateOpts := none }
    else if field.field = fieldK8sEventReasonDetail then
      .ok { field := field.field,
            termValue := { type := .jqJson,
                           value := "select(." ++ fieldK8sEventReasonDetail ++ " == \"" ++ field.strValue ++ "\")" },
            negateOpts := none }
    else .error .unknownField
  else .error .unknownSrc

/-- The raw-value fallback body of `newMatchTerm` (the code after the
`knownSrcField` attempt, inlined in the source): pick the single populated
variant of `StrValue`/`JqValue`/`RegexValue`; more than one populated is
`ErrInvalidNodeType`.  The zero `match.TermT` is modelled as a raw term
with empty value (never observed by the claims). -/
def newMatchTermFallback (field : FieldT) : Except ErrT AstFieldT :=
  let tv0 : TermT := { type := .raw, value := "" }
  let tv1 : TermT := if field.strValue = "" then tv0
    else { type := .raw, value := field.strValue }
  let c1 : Nat := if field.strValue = "" then 0 else 1
  let tv2 : TermT := if field.jqValue = "" then tv1
    else { type := .jqJson, value := field.jqValue }
  let c2 : Nat := if field.jqValue = "" then c1 else c1 + 1
  let tv3 : TermT := if field.regexValue = "" then tv2
    else { type := .regex, value := field.regexValue }
  let c3 : Nat := if field.regexValue = "" then c2 else c2 + 1
  if c3 > 1 then .error .invalidNodeType
  else .ok { field := field.field, termValue := tv3, negateOpts := none }

/-- Go `newMatchTerm(src string, field parser.FieldT)`: try `knownSrcField`
first; on ANY error (unknown source or unknown field alike) fall back to
the raw-value handling — the error from `knownSrcField` is discarded. -/
def newMatchTerm (src : String) (field : FieldT) : Except ErrT AstFieldT :=
  match knownSrcField src field with
  | .ok t => .ok t
  | .error _ => newMatchTermFallback field

/-- Go `newNegateTerm(src string, field parser.FieldT)`. -/
def newNegateTerm (src : String) (field : FieldT) : Except ErrT AstFieldT :=
  match newMatchTerm src field with
  | .error e => .error e
  | .ok t =>
    match field.negateOpts with
    | some no =>
      .ok { t with negateOpts := some { window := no.window, slide := no.slide,
                                        anchor := no.anchor, absolute := no.absolute } }
    | none => .ok t

/-! ## Parse-rule input types

The struct definitions (`types.go` of `pkg/parser`) are not under `src/`;
their fields are reconstructed from every use in `tree.go` and the input
grammar of spec section 6.1.  String-typed durations are still unparsed
here (`Window`, negate-option `Window`/`Slide`). -/

structure ParseEventT where
  source : String
  origin : Bool
  deriving DecidableEq, Repr

structure ParseNegateOptsT where
  window : String
  slide : String
  anchor : Nat
  absolute : Bool
  deriving DecidableEq, Repr

structure ParseExtractT where
  name : String
  jqValue : String
  regexValue : String
  deriving DecidableEq, Repr

mutual
inductive ParseTermT where
  | mk (field strValue jqValue regexValue : String) (count : Int)
       (negateOpts : Option ParseNegateOptsT) (extract : List ParseExtractT)
       (sequence : Option ParseSequenceT) (set : Option ParseSetT)
  deriving Repr
inductive ParseSequenceT where
  | mk (window : String) (correlations : Option (List String))
       (event : Option ParseEventT)
       (order : Option (List ParseTermT)) (negate : Option (List ParseTermT))
  deriving Repr
inductive ParseSetT where
  | mk (window : String) (correlations : Option (List String))
       (event : Option ParseEventT)
       (matchL : Option (List ParseTermT)) (negate : Option (List ParseTermT))
  deriving Repr
end

def ParseTermT.field : ParseTermT → String
  | .mk f _ _ _ _ _ _ _ _ => f

def ParseTermT.strValue : ParseTermT → String
  | .mk _ s _ _ _ _ _ _ _ => s

def ParseTermT.jqValue : ParseTermT → String
  | .mk _ _ j _ _ _ _ _ _ => j

def ParseTermT.regexValue : ParseTermT → String
  | .mk _ _ _ r _ _ _ _ _ => r

def ParseTermT.count : ParseTermT → Int
  | .mk _ _ _ _ c _ _ _ _ => c

def ParseTermT.negateOpts : ParseTermT → Option ParseNegateOptsT
  | .mk _ _ _ _ _ no _ _ _ => no

def ParseTermT.extract : ParseTermT → List ParseExtractT
  | .mk _ _ _ _ _ _ e _ _ => e

def ParseTermT.sequence : ParseTermT → Option ParseSequenceT
  | .mk _ _ _ _ _ _ _ sq _ => sq

def ParseTermT.set : ParseTermT → Option ParseSetT
  | .mk _ _ _ _ _ _ _ _ st => st

/-- Go `t.NegateOpts = term.NegateOpts` assignment inside `buildChildren`. -/
def ParseTermT.withNegateOpts : ParseTermT → Option ParseNegateOptsT → ParseTermT
  | .mk f s j r c _ e sq st, no => .mk f s j r c no e sq st

def ParseSequenceT.window : ParseSequenceT → String
  | .mk w _ _ _ _ => w

def ParseSequenceT.correlations : ParseSequenceT → Option (List String)
  | .mk _ c _ _ _ => c

def ParseSequenceT.event : ParseSequenceT → Option ParseEventT
  | .mk _ _ e _ _ => e

def ParseSequenceT.order : ParseSequenceT → Option (List ParseTermT)
  | .mk _ _ _ o _ => o

def ParseSequenceT.negate : ParseSequenceT → Option (List ParseTermT)
  | .mk _ _ _ _ n => n

def ParseSetT.window : ParseSetT → String
  | .mk w _ _ _ _ => w

def ParseSetT.correlations : ParseSetT → Option (List String)
  | .mk _ c _ _ _ => c

def ParseSetT.event : ParseSetT → Option ParseEventT
  | .mk _ _ e _ _ => e

def ParseSetT.matchL : ParseSetT → Option (List ParseTermT)
  | .mk _ _ _ m _ => m

def ParseSetT.negate : ParseSetT → Option (List ParseTermT)
  | .mk _ _ _ _ n => n

structure ParseMetadataT where
  id : String
  hash : String
  cre : String
  gen : Int
  version : String
  deriving DecidableEq, Repr

/-- Input `cre: { id: <cre-id>, ... }` — only the id is consumed by the tree
builder; the remaining CRE payload is irrelevant to the claims. -/
structure ParseCreT where
  id : String
  deriving DecidableEq, Repr

structure ParseRuleBodyT where
  sequence : Option ParseSequenceT
  set : Option ParseSetT
  deriving Repr

structure ParseRuleT where
  metadata : ParseMetadataT
  cre : ParseCreT
  rule : ParseRuleBodyT
  deriving Repr

/-- The yaml skeleton bits the builder reads through `findChild`:
whether the `rule:`, `order:` and `match:` keys are present in the raw
document (a key present with a null value decodes to a `none` field while
still being found by `findChild`). -/
structure RuleYamlT where
  hasRuleKey : Bool
  orderKeyPresent : Bool
  matchKeyPresent : Bool
  deriving DecidableEq, Repr

/-! ## Leaf helpers of the parse-tree builder (tree.go) -/

/-- Go `newEvent(t *ParseEventT)`. -/
def newEvent (t : ParseEventT) : EventT :=
  { source := t.source, origin := t.origin }

/-- Go `initNode(ruleId, ruleHash, creId string, yn *yaml.Node)`; the yaml
node only supplies the (unmodelled) position. -/
def initNode (ruleId ruleHash creId : String) : Except ErrT NodeT :=
  if ruleId = "" then .error .missingRuleId
  else if ¬ isValidBase58Id ruleId then .error .invalidRuleId
  else if ruleHash = "" then .error .missingRuleHash
  else if ¬ isValidBase58Id ruleHash then .error .invalidRuleHash
  else if creId = "" then .error .missingCreId
  else if ¬ isValidCreId creId then .error .invalidCreId
  else .ok (.mk { ruleId := ruleId, ruleHash := ruleHash, creId := creId,
                  window := 0, event := none, type := "",
                  correlations := none, negateOpts := none }
               (-1) [])

/-- Go `extractTerms(terms []ParseExtractT)`: validate each extract name and
collect the bindings in input order, failing on the first invalid name. -/
def extractTerms : List ParseExtractT → Except ErrT (List ExtractT)
  | [] => .ok []
  | t :: rest =>
    if ¬ isValidExtractName t.name then .error .extractName
    else match extractTerms rest with
      | .error e => .error e
      | .ok es => .ok ({ name := t.name, jqValue := t.jqValue,
                         regexValue := t.regexValue } :: es)

/-- Go `negateOpts(term ParseTermT)`: parse the duration strings of the
term's negate options.  The source dereferences `term.NegateOpts`
(callers guard non-nil); a `none` here yields the zero options. -/
def negateOptsF (term : ParseTermT) : Except ErrT NegateOptsT :=
  let no := term.negateOpts.getD { window := "", slide := "", anchor := 0, absolute := false }
  let winRes : Except ErrT Int :=
    if no.window ≠ "" then
      match parseDuration no.window with
      | some d => .ok d
      | none => .error .durationParse
    else .ok 0
  match winRes with
  | .error e => .error e
  | .ok w =>
    let slideRes : Except ErrT Int :=
      if no.slide ≠ "" then
        match parseDuration no.slide with
        | some d => .ok d
        | none => .error .durationParse
      else .ok 0
    match slideRes with
    | .error e => .error e
    | .ok s => .ok { window := w, slide := s, anchor := no.anchor, absolute := no.absolute }

/-- Go `parseValue(term ParseTermT, negate bool)`: lower a scalar field-spec
to a one-field `MatcherT`.  On the positive side extracts are validated
and kept; on the negate side the extracts are ignored entirely and the
per-field negate options are parsed instead. -/
def parseValue (term : ParseTermT) (negate : Bool) : Except ErrT MatcherT :=
  match negate with
  | false =>
    let exRes : Except ErrT (List ExtractT) :=
      if term.extract.length > 0 then extractTerms term.extract else .ok []
    match exRes with
    | .error e => .error e
    | .ok extracts =>
      .ok { matchF := { fields := [{ field := term.field, strValue := term.strValue,
                                     jqValue := term.jqValue, regexValue := term.regexValue,
                                     count := term.count, negateOpts := none,
                                     extract := extracts }] },
            negate := { fields := [] }, window := 0 }
  | true =>
    let optsRes : Except ErrT (Option NegateOptsT) :=
      match term.negateOpts with
      | some _ =>
        match negateOptsF term with
        | .error e => .error e
        | .ok o => .ok (some o)
      | none => .ok none
    match optsRes with
    | .error e => .error e
    | .ok opts =>
      .ok { matchF := { fields := [] },
            negate := { fields := [{ field := term.field, strValue := term.strValue,
                                     jqValue := term.jqValue, regexValue := term.regexValue,
                                     count := term.count, negateOpts := opts,
                                     extract := [] }] },
            window := 0 }

/-- The metadata rewrites of `seqNodeProps` after the order check: promote
to `log_seq` when an event is present, parse the window (failure is
`ErrInvalidWindow`), copy correlations.  (In the source these are
sequential mutations of `node.Metadata`; they are factored into one
metadata function here so that the node skeleton is visibly untouched.) -/
def seqMetadataProps (md0 : NodeMetadataT) (seq : ParseSequenceT) :
    Except ErrT NodeMetadataT :=
  let md1 := match seq.event with
    | some ev => { md0 with type := nodeTypeLogSeq, event := some (newEvent ev) }
    | none => md0
  let winRes : Except ErrT NodeMetadataT :=
    if seq.window ≠ "" then
      match parseDuration seq.window with
      | some d => .ok { md1 with window := d }
      | none => .error .invalidWindow
    else .ok md1
  match winRes with
  | .error e => .error e
  | .ok md2 =>
    .ok (match seq.correlations with
      | some cs => { md2 with correlations := some cs }
      | none => md2)

/-- Go `seqNodeProps(node *NodeT, seq *ParseSequenceT, order bool, yn *yaml.Node)`:
set the node type to `machine_seq`, check the order flag, then apply the
remaining metadata rewrites. -/
def seqNodeProps (node : NodeT) (seq : ParseSequenceT) (order : Bool) : Except ErrT NodeT :=
  if ¬ order then .error .missingOrder
  else match seqMetadataProps { node.metadata with type := nodeTypeSeq } seq with
    | .error e => .error e
    | .ok md => .ok (node.withMetadata md)

/-- The metadata rewrites of `setNodeProps` after the match check
(promotion to `log_set`, window parsing, correlations). -/
def setMetadataProps (md0 : NodeMetadataT) (set : ParseSetT) :
    Except ErrT NodeMetadataT :=
  let md1 := match set.event with
    | some ev => { md0 with type := nodeTypeLogSet, event := some (newEvent ev) }
    | none => md0
  let winRes : Except ErrT NodeMetadataT :=
    if set.window ≠ "" then
      match parseDuration set.window with
      | some d => .ok { md1 with window := d }
      | none => .error .invalidWindow
    else .ok md1
  match winRes with
  | .error e => .error e
  | .ok md2 =>
    .ok (match set.correlations with
      | some cs => { md2 with correlations := some cs }
      | none => md2)

/-- Go `setNodeProps(node *NodeT, set *ParseSetT, match bool, yn *yaml.Node)`. -/
def setNodeProps (node : NodeT) (set : ParseSetT) (matchB : Bool) : Except ErrT NodeT :=
  if ¬ matchB then .error .missingMatch
  else match setMetadataProps { node.metadata with type := nodeTypeSet } set with
    | .error e => .error e
    | .ok md => .ok (node.withMetadata md)

/-- The terms index `map[string]ParseTermT` as an association list. -/
def lookupTerm : List (String × ParseTermT) → String → Option ParseTermT
  | [], _ => none
  | (k, v) :: rest, s => if k = s then some v else lookupTerm rest s

/-! ## Recursive builders (tree.go)

`buildChildren` / `nodeFromTerm` / `buildSequenceNode` / `buildSetNode` /
`buildPosNegChildren` recurse through the terms index with no cycle guard;
fuel makes them total (see module docstring).  `termsY` is the domain of
the yaml-position map `map[string]*yaml.Node` for term bindings. -/

mutual

/-- Go `buildChildren(parent, tm, terms, parentNegate, yn, termsY)`: resolve
each child term (string values are looked up in the terms index; on a hit
the term body is substituted and reference-site negate options override),
then build each child via `nodeFromTerm`. -/
def buildChildren (fuel : Nat) (parent : NodeT) (tm : List (String × ParseTermT))
    (termsY : List String) (terms : List ParseTermT) (parentNegate : Bool) :
    Except ErrT (List ChildT) :=
  match fuel with
  | 0 => .error .outOfFuel
  | fuel + 1 =>
    match terms with
    | [] => .ok []
    | term :: rest =>
      let tRes : Except ErrT ParseTermT :=
        if term.strValue ≠ "" then
          -- If the term is not found in the terms map, then use as str value
          match lookupTerm tm term.strValue with
          | some resolvedTerm =>
            if termsY.contains term.strValue then
              .ok (if term.negateOpts.isSome
                   then resolvedTerm.withNegateOpts term.negateOpts
                   else resolvedTerm)
            else .error .termNotFound
          | none => .ok term
        else .ok term
      match tRes with
      | .error e => .error e
      | .ok t =>
        match nodeFromTerm fuel parent tm termsY t parentNegate with
        | .error e => .error e
        | .ok child =>
          match buildChildren fuel parent tm termsY rest parentNegate with
          | .error e => .error e
          | .ok children => .ok (child :: children)

/-- Go `nodeFromTerm(parent, termsT, term, parentNegate, yn, termsY)`. -/
def nodeFromTerm (fuel : Nat) (parent : NodeT) (tm : List (String × ParseTermT))
    (termsY : List String) (term : ParseTermT) (parentNegate : Bool) :
    Except ErrT ChildT :=
  match fuel with
  | 0 => .error .outOfFuel
  | fuel + 1 =>
    match term.sequence with
    | some sq =>
      match buildSequenceNode fuel parent tm termsY sq with
      | .error e => .error e
      | .ok node =>
        match term.negateOpts with
        | some _ =>
          match negateOptsF term with
          | .error e => .error e
          | .ok opts =>
            .ok (.node (node.withMetadata { node.metadata with negateOpts := some opts }))
        | none => .ok (.node node)
    | none =>
      match term.set with
      | some st =>
        match buildSetNode fuel parent tm termsY st with
        | .error e => .error e
        | .ok node =>
          match term.negateOpts with
          | some _ =>
            match negateOptsF term with
            | .error e => .error e
            | .ok opts =>
              .ok (.node (node.withMetadata { node.metadata with negateOpts := some opts }))
          | none => .ok (.node node)
      | none =>
        if term.strValue ≠ "" ∨ term.jqValue ≠ "" ∨ term.regexValue ≠ "" then
          match parseValue term parentNegate with
          | .error e => .error e
          | .ok m => .ok (.matcher m)
        else .error .termNotFound

/-- Go `buildSequenceNode(parent, termsT, seq, yn, termsY)`. -/
def buildSequenceNode (fuel : Nat) (parent : NodeT) (tm : List (String × ParseTermT))
    (termsY : List String) (seq : ParseSequenceT) : Except ErrT NodeT :=
  match fuel with
  | 0 => .error .outOfFuel
  | fuel + 1 =>
    match initNode parent.metadata.ruleId parent.metadata.ruleHash parent.metadata.creId with
    | .error e => .error e
    | .ok node =>
      match buildPosNegChildren fuel node tm termsY (seq.order.getD []) (seq.negate.getD []) with
      | .error e => .error e
      | .ok (pos, neg) =>
        -- Apply sequence-specific node properties
        match seqNodeProps node seq seq.order.isSome with
        | .error e => .error e
        | .ok node =>
          let node := node.withChildren (node.children ++ pos ++ neg)
          let node := if neg.length > 0 then node.withNegIdx (pos.length : Int) else node
          .ok node

/-- Go `buildSetNode(parent, termsT, set, yn, termsY)`. -/
def buildSetNode (fuel : Nat) (parent : NodeT) (tm : List (String × ParseTermT))
    (termsY : List String) (set : ParseSetT) : Except ErrT NodeT :=
  match fuel with
  | 0 => .error .outOfFuel
  | fuel + 1 =>
    match initNode parent.metadata.ruleId parent.metadata.ruleHash parent.metadata.creId with
    | .error e => .error e
    | .ok node =>
      match buildPosNegChildren fuel node tm termsY (set.matchL.getD []) (set.negate.getD []) with
      | .error e => .error e
      | .ok (pos, neg) =>
        -- Apply set-specific node properties
        match setNodeProps node set set.matchL.isSome with
        | .error e => .error e
        | .ok node =>
          let node := node.withChildren (node.children ++ pos ++ neg)
          let node := if neg.length > 0 then node.withNegIdx (pos.length : Int) else node
          .ok node

/-- Go `buildPosNegChildren(node, termsT, matches, negates, yn, termsY)`:
positive children from the matches slice, negative from the negates slice
(a nil slice and an empty slice both have length zero). -/
def buildPosNegChildren (fuel : Nat) (node : NodeT) (tm : List (String × ParseTermT))
    (termsY : List String) (matchesL negatesL : List ParseTermT) :
    Except ErrT (List ChildT × List ChildT) :=
  match fuel with
  | 0 => .error .outOfFuel
  | fuel + 1 =>
    let posRes : Except ErrT (List ChildT) :=
      if matchesL.length > 0 then buildChildren fuel node tm termsY matchesL false
      else .ok []
    match posRes with
    | .error e => .error e
    | .ok pos =>
      let negRes : Except ErrT (List ChildT) :=
        if negatesL.length > 0 then buildChildren fuel node tm termsY negatesL true
        else .ok []
      match negRes with
      | .error e => .error e
      | .ok neg => .ok (pos, neg)

end

/-- Go `buildChildrenGroups(root, termsT, matches, negates, orderYn, negateYn, termsY)`:
the root-level twin of `buildPosNegChildren` (duplicated in the source). -/
def buildChildrenGroups (fuel : Nat) (root : NodeT) (tm : List (String × ParseTermT))
    (termsY : List String) (matchesL negatesL : List ParseTermT) :
    Except ErrT (List ChildT × List ChildT) :=
  let posRes : Except ErrT (List ChildT) :=
    if matchesL.length > 0 then buildChildren fuel root tm termsY matchesL false
    else .ok []
  match posRes with
  | .error e => .error e
  | .ok pos =>
    let negRes : Except ErrT (List ChildT) :=
      if negatesL.length > 0 then buildChildren fuel root tm termsY negatesL true
      else .ok []
    match negRes with
    | .error e => .error e
    | .ok neg => .ok (pos, neg)

/-- The default used for the (caller-guaranteed non-nil) dereference of
`r.Rule.Sequence` / `r.Rule.Set` inside the per-variant tree builders. -/
def emptySeq : ParseSequenceT := .mk "" none none none none
def emptySet : ParseSetT := .mk "" none none none none

/-- Go `buildSequenceTree(root, termsT, r, ruleNode, termsY)`: the `order:`
yaml key must be present (`findChild`), children are built, then
`seqNodeProps` rejects a nil decoded `Order`. -/
def buildSequenceTree (fuel : Nat) (root : NodeT) (tm : List (String × ParseTermT))
    (termsY : List String) (r : ParseRuleT) (yamlInfo : RuleYamlT) : Except ErrT NodeT :=
  let seq := r.rule.sequence.getD emptySeq
  if ¬ yamlInfo.orderKeyPresent then .error .missingOrder
  else
    -- Build positive children from seq.Order (non-negated)
    -- Build negative children from seq.Negate (negated)
    match buildChildrenGroups fuel root tm termsY (seq.order.getD []) (seq.negate.getD []) with
    | .error e => .error e
    | .ok (pos, neg) =>
      -- Apply sequence-specific node properties
      match seqNodeProps root seq seq.order.isSome with
      | .error e => .error e
      | .ok root =>
        -- Order positive first, then negatives
        let root := root.withChildren (root.children ++ pos ++ neg)
        let root := if neg.length > 0 then root.withNegIdx (pos.length : Int) else root
        .ok root

/-- Go `buildSetTree(root, termsT, r, ruleNode, termsY)`. -/
def buildSetTree (fuel : Nat) (root : NodeT) (tm : List (String × ParseTermT))
    (termsY : List String) (r : ParseRuleT) (yamlInfo : RuleYamlT) : Except ErrT NodeT :=
  let set := r.rule.set.getD emptySet
  if ¬ yamlInfo.matchKeyPresent then .error .missingMatch
  else
    match buildChildrenGroups fuel root tm termsY (set.matchL.getD []) (set.negate.getD []) with
    | .error e => .error e
    | .ok (pos, neg) =>
      -- Apply set-specific node properties
      match setNodeProps root set set.matchL.isSome with
      | .error e => .error e
      | .ok root =>
        -- Order positive first, then negatives
        let root := root.withChildren (root.children ++ pos ++ neg)
        let root := if neg.length > 0 then root.withNegIdx (pos.length : Int) else root
        .ok root

/-- Go `buildTree(termsT, r, ruleNode, termsY)`: requires the `rule:` key
(`ErrRuleRootNotFound`), then switches on which variant pointer is non-nil
— `Sequence` is tested first, `Set` second, and only when NEITHER is
populated does it fail `ErrNotSupported`. -/
def buildTree (fuel : Nat) (tm : List (String × ParseTermT)) (termsY : List String)
    (r : ParseRuleT) (yamlInfo : RuleYamlT) : Except ErrT NodeT :=
  if ¬ yamlInfo.hasRuleKey then .error .ruleRootNotFound
  else if r.rule.sequence.isSome then
    match initNode r.metadata.id r.metadata.hash r.cre.id with
    | .error e => .error e
    | .ok root => buildSequenceTree fuel root tm termsY r yamlInfo
  else if r.rule.set.isSome then
    match initNode r.metadata.id r.metadata.hash r.cre.id with
    | .error e => .error e
    | .ok root => buildSetTree fuel root tm termsY r yamlInfo
  else .error .notSupported

/-! ## AST log-matcher lowering (pkg/ast, `buildLogMatcherNode`) -/

/-- The match-field loop of `buildLogMatcherNode` over one matcher's
`Match.Fields`: a field with `Count > 1` calls `newMatchTerm` once per
iteration (the call is deterministic, so `Count` identical terms are
appended); otherwise a single term is appended. -/
def expandMatchFields (src : String) : List FieldT → Except ErrT (List AstFieldT)
  | [] => .ok []
  | f :: fs =>
    match newMatchTerm src f with
    | .error e => .error e
    | .ok t =>
      let ts := if f.count > 1 then List.replicate f.count.toNat t else [t]
      match expandMatchFields src fs with
      | .error e => .error e
      | .ok rest => .ok (ts ++ rest)

/-- The negate-field loop of `buildLogMatcherNode` over one matcher's
`Negate.Fields` (same expansion, via `newNegateTerm`). -/
def expandNegateFields (src : String) : List FieldT → Except ErrT (List AstFieldT)
  | [] => .ok []
  | f :: fs =>
    match newNegateTerm src f with
    | .error e => .error e
    | .ok t =>
      let ts := if f.count > 1 then List.replicate f.count.toNat t else [t]
      match expandNegateFields src fs with
      | .error e => .error e
      | .ok rest => .ok (ts ++ rest)

/-- The per-child loop of `buildLogMatcherNode`: every child must be a
scalar `*parser.MatcherT` (otherwise `ErrMissingScalar`); match and negate
fields are flattened across children in order. -/
def childrenLogFields (src : String) : List ChildT → Except ErrT (List AstFieldT × List AstFieldT)
  | [] => .ok ([], [])
  | .node _ :: _ => .error .missingScalar
  | .matcher m :: rest =>
    match expandMatchFields src m.matchF.fields with
    | .error e => .error e
    | .ok mf =>
      match expandNegateFields src m.negate.fields with
      | .error e => .error e
      | .ok nf =>
        match childrenLogFields src rest with
        | .error e => .error e
        | .ok (restM, restN) => .ok (mf ++ restM, nf ++ restN)

/-- The event source read by `buildLogMatcherNode`
(`parserNode.Metadata.Event.Source`; the event is non-nil on log nodes by
construction — the promotion in `seqNodeProps`/`setNodeProps` sets it). -/
def nodeEventSource (n : NodeT) : String :=
  ((n.metadata.event).getD { origin := false, source := "" }).source

/-- Go `buildLogMatcherNode(parserNode, machineAddress, termIdx)` up to the
`AstLogMatcherT` object: collect and count the match/negate fields,
validate by node type, then assemble the log-matcher payload.  The
address/scope bookkeeping of `doBuildLogMatcherNode` (in `ast.go`, not
under `src/`) is orthogonal to the matcher object and omitted. -/
def buildLogMatcherNode (n : NodeT) : Except ErrT AstLogMatcherT :=
  let src := nodeEventSource n
  match childrenLogFields src n.children with
  | .error e => .error e
  | .ok (matchFields, negateFields) =>
    let valRes : Except ErrT Unit :=
      if n.metadata.type = nodeTypeLogSet then
        validateLogSet n (matchFields.length : Int)
      else if n.metadata.type = nodeTypeLogSeq then
        validateLogSeq n (matchFields.length : Int)
      else .error .invalidNodeType
    match valRes with
    | .error e => .error e
    | .ok _ =>
      .ok { event := { origin := ((n.metadata.event).getD { origin := false, source := "" }).origin,
                       source := src },
            matchF := matchFields, negate := negateFields,
            window := n.metadata.window }

/-! ## Rule hashing (tree.go: `Hash`, `HashRule`, `StableHash`)

Modelled from the spec: the hash primitives (SHA-1/SHA-256 consumed
through a pure-function interface, base58 rendering) and the
`json.Marshal` layout of the rule struct are external to `src/`
(spec sections 1 and 3.1).  `ruleJson` is a deterministic canonical
serialization of the modelled rule struct and `hashString` a
deterministic digest stand-in rendered in the base58 alphabet; the
field-zeroing logic of `HashRule`/`StableHash` is taken verbatim from
`tree.go`. -/

def escJson (s : String) : String :=
  s.foldl (fun acc c => acc ++ (if c = '"' ∨ c = '\\' then "\\".push c else String.singleton c)) ""

def quoteJson (s : String) : String := "\"" ++ escJson s ++ "\""

def negateOptsJson : Option ParseNegateOptsT → String
  | none => "null"
  | some no =>
    "(negate " ++ quoteJson no.window ++ " " ++ quoteJson no.slide ++ " " ++
      toString no.anchor ++ " " ++ toString no.absolute ++ ")"

def extractsJson (ex : List ParseExtractT) : String :=
  ex.foldl (fun acc e => acc ++ "(extract " ++ quoteJson e.name ++ " " ++
    quoteJson e.jqValue ++ " " ++ quoteJson e.regexValue ++ ")") "["  ++ "]"

def stringsJson : Option (List String) → String
  | none => "null"
  | some l => l.foldl (fun acc s => acc ++ quoteJson s ++ ",") "[" ++ "]"

def eventJson : Option ParseEventT → String
  | none => "null"
  | some e => "(event " ++ quoteJson e.source ++ " " ++ toString e.origin ++ ")"

mutual
def termJson : ParseTermT → String
  | .mk f s j r c no ex sq st =>
    "(term " ++ quoteJson f ++ " " ++ quoteJson s ++ " " ++ quoteJson j ++ " " ++
      quoteJson r ++ " " ++ toString c ++ " " ++ negateOptsJson no ++ " " ++
      extractsJson ex ++ " " ++ seqOptJson sq ++ " " ++ setOptJson st ++ ")"
def seqOptJson : Option ParseSequenceT → String
  | none => "null"
  | some sq => seqJson sq
def setOptJson : Option ParseSetT → String
  | none => "null"
  | some st => setJson st
def seqJson : ParseSequenceT → String
  | .mk w cs ev o n =>
    "(seq " ++ quoteJson w ++ " " ++ stringsJson cs ++ " " ++ eventJson ev ++ " " ++
      termListOptJson o ++ " " ++ termListOptJson n ++ ")"
def setJson : ParseSetT → String
  | .mk w cs ev m n =>
    "(set " ++ quoteJson w ++ " " ++ stringsJson cs ++ " " ++ eventJson ev ++ " " ++
      termListOptJson m ++ " " ++ termListOptJson n ++ ")"
def termListOptJson : Option (List ParseTermT) → String
  | none => "null"
  | some l => termListJson l
def termListJson : List ParseTermT → String
  | [] => "[]"
  | t :: ts => "(cons " ++ termJson t ++ " " ++ termListJson ts ++ ")"
end

def ruleJson (r : ParseRuleT) : String :=
  "(rule (metadata " ++ quoteJson r.metadata.id ++ " " ++ quoteJson r.metadata.hash ++ " " ++
    quoteJson r.metadata.cre ++ " " ++ toString r.metadata.gen ++ " " ++
    quoteJson r.metadata.version ++ ") (cre " ++ quoteJson r.cre.id ++ ") " ++
    seqOptJson r.rule.sequence ++ " " ++ setOptJson r.rule.set ++ ")"

def base58Alphabet : List Char :=
  [ '1','2','3','4','5','6','7','8','9',
    'A','B','C','D','E','F','G','H','J','K','L','M','N','P','Q','R','S','T','U','V','W','X','Y','Z',
    'a','b','c','d','e','f','g','h','i','j','k','m','n','o','p','q','r','s','t','u','v','w','x','y','z' ]

def base58Render : Nat → Nat → String
  | 0, _ => ""
  | k + 1, n =>
    base58Render k (n / 58) ++ String.singleton (base58Alphabet.getD (n % 58) '1')

/-- Deterministic digest stand-in (the real pipeline is
`base58(sha256(bytes))`, an external collaborator). -/
def hashString (s : String) : String :=
  base58Render 16 (s.foldl (fun a c => (a * 131 + c.toNat) % (2 ^ 64)) 5381)

def _hashRule (rule : ParseRuleT) : String :=
  hashString (ruleJson rule)

/-- Go `HashRule(rule ParseRuleT)`: zero `Metadata.Hash` (it is what is being
generated, not semantically important) and hash the serialized rule. -/
def HashRule (rule : ParseRuleT) : String :=
  _hashRule { rule with metadata := { rule.metadata with hash := "" } }

/-- Go `StableHash(rule ParseRuleT)`: additionally zero the versioning
metadata (`Gen`, `Version`) before hashing. -/
def StableHash (rule : ParseRuleT) : String :=
  HashRule { rule with metadata := { rule.metadata with gen := 0, version := "" } }

/-! ## Concrete inputs used by witnesses and counterexamples -/

/-- A log_set node with exactly one positive field and a zero window. -/
def logSetOnePosNode : NodeT :=
  .mk { ruleHash := "BBBBBBBBBBBB", ruleId := "AAAAAAAAAAAA", creId := "cre-test",
        window := 0, event := some { origin := false, source := "log" },
        type := "log_set", correlations := none, negateOpts := none }
     (-1)
     [.matcher { matchF := { fields := [{ field := "", strValue := "A", jqValue := "",
                                          regexValue := "", count := 0, negateOpts := none,
                                          extract := [] }] },
                 negate := { fields := [] }, window := 0 }]

/-- A log_seq node with two positive fields and a 10s window. -/
def logSeqTwoPosNode : NodeT :=
  .mk { ruleHash := "BBBBBBBBBBBB", ruleId := "AAAAAAAAAAAA", creId := "cre-test",
        window := 10000000000, event := some { origin := false, source := "log" },
        type := "log_seq", correlations := none, negateOpts := none }
     (-1)
     [.matcher { matchF := { fields := [{ field := "", strValue := "A", jqValue := "",
                                          regexValue := "", count := 0, negateOpts := none,
                                          extract := [] },
                                        { field := "", strValue := "B", jqValue := "",
                                          regexValue := "", count := 0, negateOpts := none,
                                          extract := [] }] },
                 negate := { fields := [] }, window := 0 }]

/-- A match field naming an unknown k8s source field. -/
def fooK8sField : FieldT :=
  { field := "foo", strValue := "bar", jqValue := "", regexValue := "",
    count := 0, negateOpts := none, extract := [] }

/-- A log_set node under the `k8s` source whose single match field has the
unknown field name `foo`. -/
def fooK8sNode : NodeT :=
  .mk { ruleHash := "BBBBBBBBBBBB", ruleId := "AAAAAAAAAAAA", creId := "cre-test",
        window := 0, event := some { origin := false, source := "k8s" },
        type := "log_set", correlations := none, negateOpts := none }
     (-1)
     [.matcher { matchF := { fields := [fooK8sField] },
                 negate := { fields := [] }, window := 0 }]

/-- The "Discarding message" field with count 10 (spec scenario 3). -/
def discardField : FieldT :=
  { field := "", strValue := "Discarding message", jqValue := "", regexValue := "",
    count := 10, negateOpts := none, extract := [] }

def discardTerm : AstFieldT :=
  { field := "", termValue := { type := .raw, value := "Discarding message" },
    negateOpts := none }

/-- Decidable equality for `Except` results (not provided by core). -/
def exceptDecEq {ε α : Type} [DecidableEq ε] [DecidableEq α] :
    DecidableEq (Except ε α) := fun a b =>
  match a, b with
  | .ok x, .ok y =>
    if h : x = y then isTrue (by rw [h]) else isFalse (fun hh => h (Except.ok.inj hh))
  | .error x, .error y =>
    if h : x = y then isTrue (by rw [h]) else isFalse (fun hh => h (Except.error.inj hh))
  | .ok _, .error _ => isFalse Except.noConfusion
  | .error _, .ok _ => isFalse Except.noConfusion

instance {ε α : Type} [DecidableEq ε] [DecidableEq α] : DecidableEq (Except ε α) :=
  exceptDecEq

/-- Reduction of `buildLogMatcherNode` on a `log_set` node whose field
collection succeeds. -/
theorem buildLogMatcherNode_logSet (n : NodeT) (mf nf : List AstFieldT)
    (hty : n.metadata.type = nodeTypeLogSet)
    (hch : childrenLogFields (nodeEventSource n) n.children = .ok (mf, nf)) :
    buildLogMatcherNode n =
      match validateLogSet n (mf.length : Int) with
      | .error e => .error e
      | .ok _ =>
        .ok { event := { origin := ((n.metadata.event).getD { origin := false, source := "" }).origin,
                         source := nodeEventSource n },
              matchF := mf, negate := nf, window := n.metadata.window } := by
  unfold buildLogMatcherNode
  simp only [hch, hty, if_pos rfl]
  simp

/-- Reduction of `buildLogMatcherNode` on a `log_seq` node whose field
collection succeeds. -/
theorem buildLogMatcherNode_logSeq (n : NodeT) (mf nf : List AstFieldT)
    (hty : n.metadata.type = nodeTypeLogSeq)
    (hch : childrenLogFields (nodeEventSource n) n.children = .ok (mf, nf)) :
    buildLogMatcherNode n =
      match validateLogSeq n (mf.length : Int) with
      | .error e => .error e
      | .ok _ =>
        .ok { event := { origin := ((n.metadata.event).getD { origin := false, source := "" }).origin,
                         source := nodeEventSource n },
              matchF := mf, negate := nf, window := n.metadata.window } := by
  unfold buildLogMatcherNode
  have hne : n.metadata.type ≠ nodeTypeLogSet := by
    rw [hty]; decide
  simp only [hch, hty, if_neg hne, if_pos rfl]
  rw [if_neg (by decide : ¬ (nodeTypeLogSeq = nodeTypeLogSet))]
  simp

/-! ## Claim C1 -/

/-- C1: for a `log_set` node validated during AST construction, exactly
one positive match field (after count-expansion) with a non-zero window
fails with `ErrInvalidWindow`; more than one positive with a zero window
fails with `ErrInvalidWindow`; one positive with zero window, or more
than one positive with non-zero window, passes the validation and the
log-matcher node is built. -/
theorem c1_log_set_window_coupling :
    ∀ (n : NodeT) (mf nf : List AstFieldT),
      n.metadata.type = nodeTypeLogSet →
      childrenLogFields (nodeEventSource n) n.children = .ok (mf, nf) →
      ((mf.length = 1 ∧ n.metadata.window ≠ 0) →
          buildLogMatcherNode n = .error .invalidWindow) ∧
      ((mf.length > 1 ∧ n.metadata.window = 0) →
          buildLogMatcherNode n = .error .invalidWindow) ∧
      (((mf.length = 1 ∧ n.metadata.window = 0) ∨
        (mf.length > 1 ∧ n.metadata.window ≠ 0)) →
          ∃ obj, buildLogMatcherNode n = .ok obj) := by
  intro n mf nf hty hch
  rw [buildLogMatcherNode_logSet n mf nf hty hch]
  unfold validateLogSet
  refine ⟨?_, ?_, ?_⟩
  · rintro ⟨h1, h2⟩
    rw [if_pos ⟨by exact_mod_cast h1, h2⟩]
  · rintro ⟨h1, h2⟩
    rw [if_neg (by rintro ⟨h1', _⟩; omega), if_pos ⟨by exact_mod_cast h1, h2⟩]
  · rintro (⟨h1, h2⟩ | ⟨h1, h2⟩)
    · rw [if_neg (by rintro ⟨_, h2'⟩; exact h2' h2), if_neg (by rintro ⟨h1', _⟩; omega)]
      exact ⟨_, rfl⟩
    · rw [if_neg (by rintro ⟨h1', _⟩; omega), if_neg (by rintro ⟨_, h2'⟩; exact h2 h2')]
      exact ⟨_, rfl⟩

/-- Witness for C1: a concrete one-positive zero-window log_set passes. -/
theorem c1_witness :
    ∃ obj, buildLogMatcherNode logSetOnePosNode = .ok obj :=
  (c1_log_set_window_coupling logSetOnePosNode
      [{ field := "", termValue := { type := .raw, value := "A" }, negateOpts := none }]
      [] (by decide) (by decide)).2.2
    (Or.inl ⟨by decide, by decide⟩)

/-! ## Claim C5 -/

/-- C5: for a `log_seq` node validated during AST construction, fewer than
two positive match fields (after count-expansion) fail with
`ErrSeqPosConditions` (this check runs first); with at least two positives
a zero window fails with `ErrInvalidWindow`; at least two positives and a
non-zero window pass the validation and the log-matcher node is built. -/
theorem c5_log_seq_validation :
    ∀ (n : NodeT) (mf nf : List AstFieldT),
      n.metadata.type = nodeTypeLogSeq →
      childrenLogFields (nodeEventSource n) n.children = .ok (mf, nf) →
      (mf.length < 2 → buildLogMatcherNode n = .error .seqPosConditions) ∧
      (2 ≤ mf.length → n.metadata.window = 0 →
          buildLogMatcherNode n = .error .invalidWindow) ∧
      (2 ≤ mf.length → n.metadata.window ≠ 0 →
          ∃ obj, buildLogMatcherNode n = .ok obj) := by
  intro n mf nf hty hch
  rw [buildLogMatcherNode_logSeq n mf nf hty hch]
  unfold validateLogSeq
  refine ⟨?_, ?_, ?_⟩
  · intro h1
    rw [if_pos (by omega : (mf.length : Int) ≤ 1)]
  · intro h1 h2
    rw [if_neg (by omega : ¬ ((mf.length : Int) ≤ 1)), if_pos h2]
  · intro h1 h2
    rw [if_neg (by omega : ¬ ((mf.length : Int) ≤ 1)), if_neg h2]
    exact ⟨_, rfl⟩

/-- Witness for C5: a concrete two-positive 10s-window log_seq passes. -/
theorem c5_witness :
    ∃ obj, buildLogMatcherNode logSeqTwoPosNode = .ok obj :=
  (c5_log_seq_validation logSeqTwoPosNode
      [{ field := "", termValue := { type := .raw, value := "A" }, negateOpts := none },
       { field := "", termValue := { type := .raw, value := "B" }, negateOpts := none }]
      [] (by decide) (by decide)).2.2 (by decide) (by decide)

/-! ## Claim C6 -/

/-- C6: a field with `count = N > 1` in a log matcher's match fields or
negate fields contributes exactly N identical `AstFieldT` entries
(`List.replicate`) to the corresponding output list. -/
theorem c6_count_expansion :
    ∀ (src : String) (f : FieldT) (fs : List FieldT),
      f.count > 1 →
      (∀ t rest, newMatchTerm src f = .ok t →
          expandMatchFields src fs = .ok rest →
          expandMatchFields src (f :: fs) = .ok (List.replicate f.count.toNat t ++ rest)) ∧
      (∀ t rest, newNegateTerm src f = .ok t →
          expandNegateFields src fs = .ok rest →
          expandNegateFields src (f :: fs) = .ok (List.replicate f.count.toNat t ++ rest)) := by
  intro src f fs hc
  constructor
  · intro t rest hterm hrest
    unfold expandMatchFields
    rw [hterm, hrest]
    simp [hc]
  · intro t rest hterm hrest
    unfold expandNegateFields
    rw [hterm, hrest]
    simp [hc]

/-- Witness for C6: the "Discarding message" field with count 10 expands
into ten identical positive entries (spec scenario 3). -/
theorem c6_witness :
    expandMatchFields "" [discardField] = .ok (List.replicate 10 discardTerm) := by
  have h := (c6_count_expansion "" discardField [] (by decide)).1 discardTerm []
    (by decide) (by decide)
  simpa using h

/-! ## Claim C2 (corrected) -/

/-- Counterexample for C2 as stated: the unknown k8s field name `foo`
makes `knownSrcField` return `ErrUnknownField`, but `newMatchTerm`
discards that error and lowers the field as a raw string term, and the
whole log-matcher build succeeds — lowering never fails with
`ErrUnknownField`. -/
theorem c2_counterexample :
    knownSrcField "k8s" fooK8sField = .error .unknownField ∧
    newMatchTerm "k8s" fooK8sField =
      .ok { field := "foo", termValue := { type := .raw, value := "bar" }, negateOpts := none } ∧
    buildLogMatcherNode fooK8sNode =
      .ok { event := { origin := false, source := "k8s" },
            matchF := [{ field := "foo", termValue := { type := .raw, value := "bar" },
                         negateOpts := none }],
            negate := [], window := 0 } := by
  refine ⟨by decide, by decide, by decide⟩

/-- C2 amended: under the recognized `k8s` source, a match or negate
field whose name is outside the allow-list (`reason`, `type`,
`reasonDetail`) makes `knownSrcField` return `ErrUnknownField`, but
`newMatchTerm` swallows that error and falls back to raw-string handling,
so lowering never fails with `ErrUnknownField`; an unrecognized source
likewise falls back to raw-string handling and never fails with
`ErrUnknownSrc`. -/
theorem c2_known_src_fallback :
    ∀ (src : String) (field : FieldT),
      (src = eventTypeK8s →
        field.field ≠ fieldK8sEventReason →
        field.field ≠ fieldK8sEventType →
        field.field ≠ fieldK8sEventReasonDetail →
          knownSrcField src field = .error .unknownField ∧
          newMatchTerm src field = newMatchTermFallback field) ∧
      (src ≠ eventTypeK8s →
          knownSrcField src field = .error .unknownSrc ∧
          newMatchTerm src field = newMatchTermFallback field) ∧
      (newMatchTerm src field ≠ .error .unknownField ∧
       newMatchTerm src field ≠ .error .unknownSrc) := by
  intro src field
  have hfb : ∀ e, newMatchTermFallback field ≠ .error e ∨ e = .invalidNodeType := by
    intro e
    unfold newMatchTermFallback
    by_cases h : (if field.regexValue = "" then
        (if field.jqValue = "" then (if field.strValue = "" then 0 else 1)
         else (if field.strValue = "" then 0 else 1) + 1)
      else (if field.jqValue = "" then (if field.strValue = "" then 0 else 1)
            else (if field.strValue = "" then 0 else 1) + 1) + 1) > 1
    · by_cases he : e = ErrT.invalidNodeType
      · exact Or.inr he
      · refine Or.inl ?_
        rw [if_pos h]
        intro hh
        exact he (Except.error.inj hh).symm
    · refine Or.inl ?_
      rw [if_neg h]
      exact fun hh => Except.noConfusion hh
  refine ⟨?_, ?_, ?_⟩
  · intro hsrc h1 h2 h3
    have hk : knownSrcField src field = .error .unknownField := by
      unfold knownSrcField
      rw [if_pos hsrc, if_neg h1, if_neg h2, if_neg h3]
    refine ⟨hk, ?_⟩
    unfold newMatchTerm
    rw [hk]
  · intro hsrc
    have hk : knownSrcField src field = .error .unknownSrc := by
      unfold knownSrcField
      rw [if_neg hsrc]
    refine ⟨hk, ?_⟩
    unfold newMatchTerm
    rw [hk]
  · have key : ∀ e, e = ErrT.unknownField ∨ e = ErrT.unknownSrc →
        newMatchTerm src field ≠ .error e := by
      intro e he
      unfold newMatchTerm
      cases hk : knownSrcField src field with
      | ok t => exact fun hh => Except.noConfusion hh
      | error e' =>
        rcases hfb e with h | h
        · exact h
        · rcases he with he | he <;> rw [he] at h <;> simp at h
    exact ⟨key _ (Or.inl rfl), key _ (Or.inr rfl)⟩

/-- Witness for C2 amended: concrete unknown k8s field and unknown
source both fall back to raw handling. -/
theorem c2_witness :
    (knownSrcField "k8s" fooK8sField = .error .unknownField ∧
     newMatchTerm "k8s" fooK8sField = newMatchTermFallback fooK8sField) ∧
    (knownSrcField "syslog" fooK8sField = .error .unknownSrc ∧
     newMatchTerm "syslog" fooK8sField = newMatchTermFallback fooK8sField) :=
  ⟨(c2_known_src_fallback "k8s" fooK8sField).1 (by decide) (by decide) (by decide) (by decide),
   (c2_known_src_fallback "syslog" fooK8sField).2.1 (by decide)⟩

/-! ## Claim C3 (corrected) -/

def isOkRes : Except ErrT NodeT → Bool
  | .ok _ => true
  | .error _ => false

/-- All three yaml keys (`rule:`, `order:`, `match:`) present. -/
def allKeysYaml : RuleYamlT := { hasRuleKey := true, orderKeyPresent := true, matchKeyPresent := true }

/-- A rule whose body populates BOTH `sequence` and `set`. -/
def ruleBothSeqSet : ParseRuleT :=
  { metadata := { id := "AAAAAAAAAAAA", hash := "BBBBBBBBBBBB", cre := "cre-test",
                  gen := 0, version := "" },
    cre := { id := "cre-test" },
    rule := { sequence := some (.mk "" none none
                 (some [.mk "" "hello" "" "" 0 none [] none none]) none),
              set := some (.mk "" none none
                 (some [.mk "" "x" "" "" 0 none [] none none]) none) } }

/-- Counterexample for C3 as stated: a rule with BOTH `sequence` and
`set` populated does not fail with `ErrNotSupported` — `buildTree`
succeeds (building the sequence variant). -/
theorem c3_counterexample :
    ruleBothSeqSet.rule.sequence.isSome = true ∧
    ruleBothSeqSet.rule.set.isSome = true ∧
    isOkRes (buildTree 100 [] [] ruleBothSeqSet allKeysYaml) = true ∧
    buildTree 100 [] [] ruleBothSeqSet allKeysYaml ≠ .error .notSupported := by
  refine ⟨by decide, by decide, by decide, ?_⟩
  intro h
  have hok : isOkRes (buildTree 100 [] [] ruleBothSeqSet allKeysYaml) = true := by decide
  rw [h] at hok
  simp [isOkRes] at hok

/-- C3 amended: `buildTree` fails with `ErrNotSupported` only when
NEITHER `sequence` nor `set` is populated; when `sequence` is populated
(even if `set` also is) the sequence variant is built; when only `set` is
populated the set variant is built. -/
theorem c3_variant_dispatch :
    ∀ (fuel : Nat) (tm : List (String × ParseTermT)) (ty : List String)
      (r : ParseRuleT) (info : RuleYamlT),
      info.hasRuleKey = true →
      ((r.rule.sequence = none ∧ r.rule.set = none) →
          buildTree fuel tm ty r info = .error .notSupported) ∧
      (r.rule.sequence.isSome = true →
          buildTree fuel tm ty r info =
            (match initNode r.metadata.id r.metadata.hash r.cre.id with
             | .error e => .error e
             | .ok root => buildSequenceTree fuel root tm ty r info)) ∧
      ((r.rule.sequence = none ∧ r.rule.set.isSome = true) →
          buildTree fuel tm ty r info =
            (match initNode r.metadata.id r.metadata.hash r.cre.id with
             | .error e => .error e
             | .ok root => buildSetTree fuel root tm ty r info)) := by
  intro fuel tm ty r info hkey
  unfold buildTree
  rw [hkey]
  refine ⟨?_, ?_, ?_⟩
  · rintro ⟨h1, h2⟩
    simp [h1, h2]
  · intro h1
    simp [h1]
  · rintro ⟨h1, h2⟩
    simp [h1, h2]

/-- Witness for C3 amended: the no-variant rule fails `ErrNotSupported`
and the both-variant rule dispatches to the sequence builder. -/
theorem c3_witness :
    buildTree 100 [] []
      { metadata := { id := "AAAAAAAAAAAA", hash := "BBBBBBBBBBBB", cre := "cre-test",
                      gen := 0, version := "" },
        cre := { id := "cre-test" },
        rule := { sequence := none, set := none } } allKeysYaml = .error .notSupported ∧
    buildTree 100 [] [] ruleBothSeqSet allKeysYaml =
      (match initNode ruleBothSeqSet.metadata.id ruleBothSeqSet.metadata.hash
           ruleBothSeqSet.cre.id with
       | .error e => .error e
       | .ok root => buildSequenceTree 100 root [] [] ruleBothSeqSet allKeysYaml) :=
  ⟨(c3_variant_dispatch 100 [] [] _ allKeysYaml (by decide)).1 ⟨rfl, rfl⟩,
   (c3_variant_dispatch 100 [] [] ruleBothSeqSet allKeysYaml (by decide)).2.1 (by decide)⟩

/-! ## Claim C4 (corrected) -/

/-- Input `rule: { sequence: { window: 10s, order: [] } }` (spec scenario 5):
the `order` key is present and decodes to an empty (non-nil) list. -/
def ruleEmptyOrder : ParseRuleT :=
  { metadata := { id := "AAAAAAAAAAAA", hash := "BBBBBBBBBBBB", cre := "cre-test",
                  gen := 0, version := "" },
    cre := { id := "cre-test" },
    rule := { sequence := some (.mk "10s" none none (some []) none), set := none } }

/-- Counterexample for C4 as stated: the input
`sequence { window: 10s, order: [] }` does NOT fail with
`ErrMissingOrder` — the parse-tree builder succeeds (yielding a
machine_seq node with no children). -/
theorem c4_counterexample :
    isOkRes (buildTree 100 [] [] ruleEmptyOrder allKeysYaml) = true ∧
    buildTree 100 [] [] ruleEmptyOrder allKeysYaml ≠ .error .missingOrder := by
  refine ⟨by decide, ?_⟩
  intro h
  have hok : isOkRes (buildTree 100 [] [] ruleEmptyOrder allKeysYaml) = true := by decide
  rw [h] at hok
  simp [isOkRes] at hok

theorem buildChildrenGroups_nil (fuel : Nat) (root : NodeT)
    (tm : List (String × ParseTermT)) (ty : List String) :
    buildChildrenGroups fuel root tm ty [] [] = .ok ([], []) := by
  unfold buildChildrenGroups
  simp

/-- C4 amended: a sequence fails with `ErrMissingOrder` when the `order`
yaml key is absent, or when the decoded order list is nil; an explicitly
empty `order: []` (non-nil empty list) passes both order checks, and
`sequence { window: 10s, order: [] }` builds successfully into a
machine_seq node with no added children and a 10s window. -/
theorem c4_missing_order :
    ∀ (fuel : Nat) (root : NodeT) (tm : List (String × ParseTermT)) (ty : List String)
      (r : ParseRuleT) (info : RuleYamlT) (sq : ParseSequenceT),
      r.rule.sequence = some sq →
      (info.orderKeyPresent = false →
          buildSequenceTree fuel root tm ty r info = .error .missingOrder) ∧
      (info.orderKeyPresent = true → sq.order = none → sq.negate = none →
          buildSequenceTree fuel root tm ty r info = .error .missingOrder) ∧
      (info.orderKeyPresent = true → sq.order = some [] → sq.negate = none →
       sq.event = none → sq.window = "10s" →
          ∃ node, buildSequenceTree fuel root tm ty r info = .ok node ∧
            node.children = root.children ∧
            node.negIdx = root.negIdx ∧
            node.metadata.type = nodeTypeSeq ∧
            node.metadata.window = 10000000000) := by
  intro fuel root tm ty r info sq hseq
  unfold buildSequenceTree
  rw [hseq]
  simp only [Option.getD_some]
  refine ⟨?_, ?_, ?_⟩
  · intro hkey
    rw [hkey]
    simp
  · intro hkey hord hneg
    rw [hkey, hord, hneg]
    simp only [Option.getD_none, buildChildrenGroups_nil, Option.isSome_none]
    unfold seqNodeProps
    simp
  · intro hkey hord hneg hev hwin
    rw [hkey, hord, hneg]
    simp only [Option.getD_some, Option.getD_none, buildChildrenGroups_nil,
               Option.isSome_some]
    unfold seqNodeProps seqMetadataProps
    rw [hev, hwin]
    simp only [Bool.not_true, if_neg (by decide : ¬ ("10s" = ""))]
    have hdur : parseDuration "10s" = some 10000000000 := by decide
    rw [hdur]
    simp only [Bool.false_eq_true, if_false]
    cases hcor : sq.correlations with
    | none =>
      refine ⟨_, rfl, ?_, ?_, ?_, ?_⟩ <;> cases root <;> simp [NodeT.withMetadata,
        NodeT.withChildren, NodeT.children, NodeT.negIdx, NodeT.metadata]
    | some cs =>
      refine ⟨_, rfl, ?_, ?_, ?_, ?_⟩ <;> cases root <;> simp [NodeT.withMetadata,
        NodeT.withChildren, NodeT.children, NodeT.negIdx, NodeT.metadata]

/-- The root node handed to `buildSequenceTree` by `buildTree` for
`ruleEmptyOrder` (the `initNode` output). -/
def emptyOrderRoot : NodeT :=
  .mk { ruleHash := "BBBBBBBBBBBB", ruleId := "AAAAAAAAAAAA", creId := "cre-test",
        window := 0, event := none, type := "", correlations := none,
        negateOpts := none } (-1) []

/-- Witness for C4 amended: concrete missing-order and empty-order
sequences. -/
theorem c4_witness :
    buildSequenceTree 100 emptyOrderRoot [] [] ruleEmptyOrder
      { hasRuleKey := true, orderKeyPresent := false, matchKeyPresent := true } =
      .error .missingOrder ∧
    ∃ node, buildSequenceTree 100 emptyOrderRoot [] [] ruleEmptyOrder allKeysYaml =
        .ok node ∧
      node.children = emptyOrderRoot.children ∧
      node.negIdx = emptyOrderRoot.negIdx ∧
      node.metadata.type = nodeTypeSeq ∧
      node.metadata.window = 10000000000 :=
  ⟨(c4_missing_order 100 emptyOrderRoot [] [] ruleEmptyOrder _ _ rfl).1 rfl,
   (c4_missing_order 100 emptyOrderRoot [] [] ruleEmptyOrder allKeysYaml _ rfl).2.2
     rfl rfl rfl rfl rfl⟩

/-! ## Claim C7: helper lemmas -/

theorem withMetadata_children (n : NodeT) (m : NodeMetadataT) :
    (n.withMetadata m).children = n.children := by
  cases n; rfl

theorem withMetadata_negIdx (n : NodeT) (m : NodeMetadataT) :
    (n.withMetadata m).negIdx = n.negIdx := by
  cases n; rfl

theorem withChildren_children (n : NodeT) (c : List ChildT) :
    (n.withChildren c).children = c := by
  cases n; rfl

theorem withChildren_negIdx (n : NodeT) (c : List ChildT) :
    (n.withChildren c).negIdx = n.negIdx := by
  cases n; rfl

theorem withNegIdx_children (n : NodeT) (i : Int) :
    (n.withNegIdx i).children = n.children := by
  cases n; rfl

theorem withNegIdx_negIdx (n : NodeT) (i : Int) :
    (n.withNegIdx i).negIdx = i := by
  cases n; rfl

/-- A node returned by `initNode` has no children and `NegIdx = -1`. -/
theorem initNode_ok_shape {a b c : String} {n : NodeT}
    (h : initNode a b c = .ok n) : n.children = [] ∧ n.negIdx = -1 := by
  unfold initNode at h
  split_ifs at h
  all_goals cases h
  all_goals exact ⟨rfl, rfl⟩

/-- Go `seqNodeProps` only touches node metadata. -/
theorem seqNodeProps_preserves {node : NodeT} {sq : ParseSequenceT} {b : Bool}
    {n' : NodeT} (h : seqNodeProps node sq b = .ok n') :
    n'.children = node.children ∧ n'.negIdx = node.negIdx := by
  unfold seqNodeProps at h
  by_cases hb : b
  · rw [if_neg (by simp [hb])] at h
    cases hmd : seqMetadataProps { node.metadata with type := nodeTypeSeq } sq with
    | error e => rw [hmd] at h; cases h
    | ok md =>
      rw [hmd] at h
      cases h
      exact ⟨withMetadata_children _ _, withMetadata_negIdx _ _⟩
  · rw [if_pos (by simp [hb])] at h
    cases h

/-- Go `setNodeProps` only touches node metadata. -/
theorem setNodeProps_preserves {node : NodeT} {st : ParseSetT} {b : Bool}
    {n' : NodeT} (h : setNodeProps node st b = .ok n') :
    n'.children = node.children ∧ n'.negIdx = node.negIdx := by
  unfold setNodeProps at h
  by_cases hb : b
  · rw [if_neg (by simp [hb])] at h
    cases hmd : setMetadataProps { node.metadata with type := nodeTypeSet } st with
    | error e => rw [hmd] at h; cases h
    | ok md =>
      rw [hmd] at h
      cases h
      exact ⟨withMetadata_children _ _, withMetadata_negIdx _ _⟩
  · rw [if_pos (by simp [hb])] at h
    cases h

/-- The positive/negative split of a node built by `buildSequenceNode`. -/
theorem buildSequenceNode_posNeg {fuel : Nat} {parent : NodeT}
    {tm : List (String × ParseTermT)} {ty : List String} {sq : ParseSequenceT}
    {node : NodeT}
    (h : buildSequenceNode (fuel + 1) parent tm ty sq = .ok node) :
    ∃ n0 pos neg,
      initNode parent.metadata.ruleId parent.metadata.ruleHash parent.metadata.creId = .ok n0 ∧
      buildPosNegChildren fuel n0 tm ty (sq.order.getD []) (sq.negate.getD []) = .ok (pos, neg) ∧
      node.children = pos ++ neg ∧
      (neg ≠ [] → node.negIdx = (pos.length : Int)) ∧
      (node.negIdx = -1 ↔ neg = []) := by
  unfold buildSequenceNode at h
  split at h
  · cases h
  · rename_i n0 hinit
    split at h
    · cases h
    · rename_i pr pos neg hpn
      split at h
      · cases h
      · rename_i n1 hprops
        cases h
        obtain ⟨hch, hni⟩ := seqNodeProps_preserves hprops
        obtain ⟨h0c, h0n⟩ := initNode_ok_shape hinit
        refine ⟨n0, pos, neg, hinit, hpn, ?_, ?_, ?_⟩
        · by_cases hneg : neg.length > 0
          · rw [if_pos hneg, withNegIdx_children, withChildren_children, hch, h0c]
            rfl
          · rw [if_neg hneg, withChildren_children, hch, h0c]
            rfl
        · intro hne
          rw [if_pos (List.length_pos.mpr hne), withNegIdx_negIdx]
        · constructor
          · intro hidx
            by_cases hneg : neg = []
            · exact hneg
            · rw [if_pos (List.length_pos.mpr hneg), withNegIdx_negIdx] at hidx
              omega
          · intro hne
            subst hne
            rw [if_neg (by simp), withChildren_negIdx, hni, h0n]

/-- The positive/negative split of a node built by `buildSetNode`. -/
theorem buildSetNode_posNeg {fuel : Nat} {parent : NodeT}
    {tm : List (String × ParseTermT)} {ty : List String} {st : ParseSetT}
    {node : NodeT}
    (h : buildSetNode (fuel + 1) parent tm ty st = .ok node) :
    ∃ n0 pos neg,
      initNode parent.metadata.ruleId parent.metadata.ruleHash parent.metadata.creId = .ok n0 ∧
      buildPosNegChildren fuel n0 tm ty (st.matchL.getD []) (st.negate.getD []) = .ok (pos, neg) ∧
      node.children = pos ++ neg ∧
      (neg ≠ [] → node.negIdx = (pos.length : Int)) ∧
      (node.negIdx = -1 ↔ neg = []) := by
  unfold buildSetNode at h
  split at h
  · cases h
  · rename_i n0 hinit
    split at h
    · cases h
    · rename_i pr pos neg hpn
      split at h
      · cases h
      · rename_i n1 hprops
        cases h
        obtain ⟨hch, hni⟩ := setNodeProps_preserves hprops
        obtain ⟨h0c, h0n⟩ := initNode_ok_shape hinit
        refine ⟨n0, pos, neg, hinit, hpn, ?_, ?_, ?_⟩
        · by_cases hneg : neg.length > 0
          · rw [if_pos hneg, withNegIdx_children, withChildren_children, hch, h0c]
            rfl
          · rw [if_neg hneg, withChildren_children, hch, h0c]
            rfl
        · intro hne
          rw [if_pos (List.length_pos.mpr hne), withNegIdx_negIdx]
        · constructor
          · intro hidx
            by_cases hneg : neg = []
            · exact hneg
            · rw [if_pos (List.length_pos.mpr hneg), withNegIdx_negIdx] at hidx
              omega
          · intro hne
            subst hne
            rw [if_neg (by simp), withChildren_negIdx, hni, h0n]

/-- The positive/negative split of a root built by `buildSequenceTree`
(a `buildTree` root comes from `initNode`: no children, `NegIdx = -1`). -/
theorem buildSequenceTree_posNeg {fuel : Nat} {root : NodeT}
    {tm : List (String × ParseTermT)} {ty : List String} {r : ParseRuleT}
    {info : RuleYamlT} {node : NodeT}
    (hrc : root.children = []) (hrn : root.negIdx = -1)
    (h : buildSequenceTree fuel root tm ty r info = .ok node) :
    ∃ pos neg,
      buildChildrenGroups fuel root tm ty ((r.rule.sequence.getD emptySeq).order.getD [])
        ((r.rule.sequence.getD emptySeq).negate.getD []) = .ok (pos, neg) ∧
      node.children = pos ++ neg ∧
      (neg ≠ [] → node.negIdx = (pos.length : Int)) ∧
      (node.negIdx = -1 ↔ neg = []) := by
  unfold buildSequenceTree at h
  split at h
  · cases h
  · simp only [] at h
    split at h
    · cases h
    · rename_i pr pos neg hpn
      split at h
      · cases h
      · rename_i n1 hprops
        cases h
        obtain ⟨hch, hni⟩ := seqNodeProps_preserves hprops
        refine ⟨pos, neg, hpn, ?_, ?_, ?_⟩
        · by_cases hneg : neg.length > 0
          · rw [if_pos hneg, withNegIdx_children, withChildren_children, hch, hrc]
            rfl
          · rw [if_neg hneg, withChildren_children, hch, hrc]
            rfl
        · intro hne
          rw [if_pos (List.length_pos.mpr hne), withNegIdx_negIdx]
        · constructor
          · intro hidx
            by_cases hneg : neg = []
            · exact hneg
            · rw [if_pos (List.length_pos.mpr hneg), withNegIdx_negIdx] at hidx
              omega
          · intro hne
            subst hne
            rw [if_neg (by simp), withChildren_negIdx, hni, hrn]

/-- The positive/negative split of a root built by `buildSetTree`. -/
theorem buildSetTree_posNeg {fuel : Nat} {root : NodeT}
    {tm : List (String × ParseTermT)} {ty : List String} {r : ParseRuleT}
    {info : RuleYamlT} {node : NodeT}
    (hrc : root.children = []) (hrn : root.negIdx = -1)
    (h : buildSetTree fuel root tm ty r info = .ok node) :
    ∃ pos neg,
      buildChildrenGroups fuel root tm ty ((r.rule.set.getD emptySet).matchL.getD [])
        ((r.rule.set.getD emptySet).negate.getD []) = .ok (pos, neg) ∧
      node.children = pos ++ neg ∧
      (neg ≠ [] → node.negIdx = (pos.length : Int)) ∧
      (node.negIdx = -1 ↔ neg = []) := by
  unfold buildSetTree at h
  split at h
  · cases h
  · simp only [] at h
    split at h
    · cases h
    · rename_i pr pos neg hpn
      split at h
      · cases h
      · rename_i n1 hprops
        cases h
        obtain ⟨hch, hni⟩ := setNodeProps_preserves hprops
        refine ⟨pos, neg, hpn, ?_, ?_, ?_⟩
        · by_cases hneg : neg.length > 0
          · rw [if_pos hneg, withNegIdx_children, withChildren_children, hch, hrc]
            rfl
          · rw [if_neg hneg, withChildren_children, hch, hrc]
            rfl
        · intro hne
          rw [if_pos (List.length_pos.mpr hne), withNegIdx_negIdx]
        · constructor
          · intro hidx
            by_cases hneg : neg = []
            · exact hneg
            · rw [if_pos (List.length_pos.mpr hneg), withNegIdx_negIdx] at hidx
              omega
          · intro hne
            subst hne
            rw [if_neg (by simp), withChildren_negIdx, hni, hrn]

/-! ## Claim C7 -/

/-- C7: for every composite parse node built from a sequence or set (root
builders `buildSequenceTree`/`buildSetTree`, nested builders
`buildSequenceNode`/`buildSetNode`), the children list is the positive
children (from order/match, in input order) followed by the negated
children (from negate); `NegIdx` equals the number of positives when at
least one negated child exists, and equals `-1` iff there are none. -/
theorem c7_children_split :
    (∀ (fuel : Nat) (parent : NodeT) (tm : List (String × ParseTermT)) (ty : List String)
       (sq : ParseSequenceT) (node : NodeT),
       buildSequenceNode (fuel + 1) parent tm ty sq = .ok node →
       ∃ n0 pos neg,
         initNode parent.metadata.ruleId parent.metadata.ruleHash parent.metadata.creId = .ok n0 ∧
         buildPosNegChildren fuel n0 tm ty (sq.order.getD []) (sq.negate.getD []) = .ok (pos, neg) ∧
         node.children = pos ++ neg ∧
         (neg ≠ [] → node.negIdx = (pos.length : Int)) ∧
         (node.negIdx = -1 ↔ neg = [])) ∧
    (∀ (fuel : Nat) (parent : NodeT) (tm : List (String × ParseTermT)) (ty : List String)
       (st : ParseSetT) (node : NodeT),
       buildSetNode (fuel + 1) parent tm ty st = .ok node →
       ∃ n0 pos neg,
         initNode parent.metadata.ruleId parent.metadata.ruleHash parent.metadata.creId = .ok n0 ∧
         buildPosNegChildren fuel n0 tm ty (st.matchL.getD []) (st.negate.getD []) = .ok (pos, neg) ∧
         node.children = pos ++ neg ∧
         (neg ≠ [] → node.negIdx = (pos.length : Int)) ∧
         (node.negIdx = -1 ↔ neg = [])) ∧
    (∀ (fuel : Nat) (root : NodeT) (tm : List (String × ParseTermT)) (ty : List String)
       (r : ParseRuleT) (info : RuleYamlT) (node : NodeT),
       root.children = [] → root.negIdx = -1 →
       buildSequenceTree fuel root tm ty r info = .ok node →
       ∃ pos neg,
         buildChildrenGroups fuel root tm ty ((r.rule.sequence.getD emptySeq).order.getD [])
           ((r.rule.sequence.getD emptySeq).negate.getD []) = .ok (pos, neg) ∧
         node.children = pos ++ neg ∧
         (neg ≠ [] → node.negIdx = (pos.length : Int)) ∧
         (node.negIdx = -1 ↔ neg = [])) ∧
    (∀ (fuel : Nat) (root : NodeT) (tm : List (String × ParseTermT)) (ty : List String)
       (r : ParseRuleT) (info : RuleYamlT) (node : NodeT),
       root.children = [] → root.negIdx = -1 →
       buildSetTree fuel root tm ty r info = .ok node →
       ∃ pos neg,
         buildChildrenGroups fuel root tm ty ((r.rule.set.getD emptySet).matchL.getD [])
           ((r.rule.set.getD emptySet).negate.getD []) = .ok (pos, neg) ∧
         node.children = pos ++ neg ∧
         (neg ≠ [] → node.negIdx = (pos.length : Int)) ∧
         (node.negIdx = -1 ↔ neg = [])) :=
  ⟨fun _ _ _ _ _ _ h => buildSequenceNode_posNeg h,
   fun _ _ _ _ _ _ h => buildSetNode_posNeg h,
   fun _ _ _ _ _ _ _ hrc hrn h => buildSequenceTree_posNeg hrc hrn h,
   fun _ _ _ _ _ _ _ hrc hrn h => buildSetTree_posNeg hrc hrn h⟩

/-- The sequence used by the C7 witness: one positive (`order`) and one
negated (`negate`) string term. -/
def c7Seq : ParseSequenceT :=
  .mk "" none none (some [.mk "" "hello" "" "" 0 none [] none none])
     (some [.mk "" "bye" "" "" 0 none [] none none])

/-- The node `buildSequenceNode` produces for `c7Seq`: one positive
matcher, then one negated matcher, `NegIdx = 1`. -/
def c7Node : NodeT :=
  .mk { ruleHash := "BBBBBBBBBBBB", ruleId := "AAAAAAAAAAAA", creId := "cre-test",
        window := 0, event := none, type := "machine_seq", correlations := none,
        negateOpts := none }
     1
     [.matcher { matchF := { fields := [{ field := "", strValue := "hello", jqValue := "",
                                          regexValue := "", count := 0, negateOpts := none,
                                          extract := [] }] },
                 negate := { fields := [] }, window := 0 },
      .matcher { matchF := { fields := [] },
                 negate := { fields := [{ field := "", strValue := "bye", jqValue := "",
                                          regexValue := "", count := 0, negateOpts := none,
                                          extract := [] }] }, window := 0 }]

/-- Witness for C7: the concrete sequence with one positive and one
negated child has `Children = pos ++ neg` and `NegIdx = 1`. -/
theorem c7_witness :
    ∃ n0 pos neg,
      initNode emptyOrderRoot.metadata.ruleId emptyOrderRoot.metadata.ruleHash
        emptyOrderRoot.metadata.creId = .ok n0 ∧
      buildPosNegChildren 9 n0 [] [] (c7Seq.order.getD []) (c7Seq.negate.getD []) =
        .ok (pos, neg) ∧
      c7Node.children = pos ++ neg ∧
      (neg ≠ [] → c7Node.negIdx = (pos.length : Int)) ∧
      (c7Node.negIdx = -1 ↔ neg = []) :=
  c7_children_split.1 9 emptyOrderRoot [] [] c7Seq c7Node rfl

/-! ## Claim C8 -/

/-- C8: a child term that is a plain string is first looked up in the
terms index: on a hit the term's body is substituted in place and
reference-site negate options (when supplied) replace the term's own; on
a miss the child is handed to `nodeFromTerm` unchanged, where a plain
string body is lowered by `parseValue` as a raw string matcher value.
(On a hit whose name is missing from the yaml-position map the builder
fails `ErrTermNotFound`.) -/
theorem c8_term_substitution :
    ∀ (fuel : Nat) (parent : NodeT) (tm : List (String × ParseTermT)) (ty : List String)
      (t : ParseTermT) (rest : List ParseTermT) (pn : Bool),
      t.strValue ≠ "" →
      (∀ r, lookupTerm tm t.strValue = some r → ty.contains t.strValue = true →
        buildChildren (fuel + 1) parent tm ty (t :: rest) pn =
          (match nodeFromTerm fuel parent tm ty
               (if t.negateOpts.isSome then r.withNegateOpts t.negateOpts else r) pn with
           | .error e => .error e
           | .ok child =>
             match buildChildren fuel parent tm ty rest pn with
             | .error e => .error e
             | .ok children => .ok (child :: children))) ∧
      (∀ r, lookupTerm tm t.strValue = some r → ty.contains t.strValue = false →
        buildChildren (fuel + 1) parent tm ty (t :: rest) pn = .error .termNotFound) ∧
      (lookupTerm tm t.strValue = none →
        (buildChildren (fuel + 1) parent tm ty (t :: rest) pn =
          (match nodeFromTerm fuel parent tm ty t pn with
           | .error e => .error e
           | .ok child =>
             match buildChildren fuel parent tm ty rest pn with
             | .error e => .error e
             | .ok children => .ok (child :: children))) ∧
        (t.sequence = none → t.set = none →
          nodeFromTerm (fuel + 1) parent tm ty t pn =
            (match parseValue t pn with
             | .error e => .error e
             | .ok m => .ok (.matcher m)))) := by
  intro fuel parent tm ty t rest pn hstr
  refine ⟨?_, ?_, ?_⟩
  · intro r hlk hcont
    conv_lhs => rw [buildChildren]
    simp only [if_pos hstr, hlk, hcont, if_true]
  · intro r hlk hcont
    conv_lhs => rw [buildChildren]
    simp only [if_pos hstr, hlk, hcont]
    simp
  · intro hlk
    constructor
    · conv_lhs => rw [buildChildren]
      simp only [if_pos hstr, hlk]
    · intro hseq hset
      conv_lhs => rw [nodeFromTerm]
      rw [hseq, hset, if_pos (Or.inl hstr)]

/-- The terms index and reference used by the C8 witness. -/
def c8Body : ParseTermT := .mk "" "expanded" "" "" 0 none [] none none
def c8Tm : List (String × ParseTermT) := [("T", c8Body)]
def c8Ref : ParseTermT := .mk "" "T" "" "" 0 none [] none none

/-- Witness for C8: the reference "T" is substituted by the term body on
a hit, and an unresolved plain string is lowered via `parseValue`. -/
theorem c8_witness :
    (buildChildren 10 emptyOrderRoot c8Tm ["T"] [c8Ref] false =
      (match nodeFromTerm 9 emptyOrderRoot c8Tm ["T"]
           (if c8Ref.negateOpts.isSome then c8Body.withNegateOpts c8Ref.negateOpts else c8Body)
           false with
       | .error e => .error e
       | .ok child =>
         match buildChildren 9 emptyOrderRoot c8Tm ["T"] [] false with
         | .error e => .error e
         | .ok children => .ok (child :: children))) ∧
    (c8Body.sequence = none → c8Body.set = none →
      nodeFromTerm 10 emptyOrderRoot [] [] c8Body false =
        (match parseValue c8Body false with
         | .error e => .error e
         | .ok m => .ok (.matcher m))) :=
  ⟨(c8_term_substitution 9 emptyOrderRoot c8Tm ["T"] c8Ref [] false (by decide)).1
     c8Body rfl (by decide),
   ((c8_term_substitution 9 emptyOrderRoot [] [] c8Body [] false (by decide)).2.2 rfl).2⟩

/-! ## Claim C9 -/

/-- C9: rules that differ only in `metadata.gen`, `metadata.version` and
`metadata.hash` have the same `StableHash` — the hash is a function of
the remaining rule content through the deterministic serialization
(`StableHash` zeroes `Gen`/`Version` and `HashRule` zeroes `Hash` before
hashing). -/
theorem c9_stable_hash_invariance :
    ∀ (md : ParseMetadataT) (cre : ParseCreT) (body : ParseRuleBodyT)
      (g : Int) (v hs : String),
      StableHash { metadata := md, cre := cre, rule := body } =
      StableHash { metadata := { md with gen := g, version := v, hash := hs },
                   cre := cre, rule := body } := by
  intro md cre body g v hs
  cases md
  rfl

/-! ## Claim C10 -/

/-- C10: a leaf field-spec under `negate:` has its extract bindings
discarded — the emitted negate field never carries extract entries and
the extract names are never validated (the result does not depend on the
extract list at all); the same field-spec under `order`/`match` keeps its
validated extracts, and an invalid extract name there fails with
`ErrExtractName`. -/
theorem c10_negate_discards_extracts :
    ∀ (f s j rg : String) (c : Int) (no : Option ParseNegateOptsT)
      (e1 e2 : List ParseExtractT) (sq : Option ParseSequenceT) (st : Option ParseSetT),
      (parseValue (.mk f s j rg c no e1 sq st) true =
        parseValue (.mk f s j rg c no e2 sq st) true) ∧
      (∀ m, parseValue (.mk f s j rg c no e1 sq st) true = .ok m →
        ∃ opts, m.negate.fields = [{ field := f, strValue := s, jqValue := j,
                                     regexValue := rg, count := c, negateOpts := opts,
                                     extract := [] }] ∧
          m.matchF.fields = []) ∧
      (∀ ex, (if e1.length > 0 then extractTerms e1 else .ok []) = .ok ex →
        parseValue (.mk f s j rg c no e1 sq st) false =
          .ok { matchF := { fields := [{ field := f, strValue := s, jqValue := j,
                                         regexValue := rg, count := c, negateOpts := none,
                                         extract := ex }] },
                negate := { fields := [] }, window := 0 }) ∧
      (∀ err, extractTerms e1 = .error err → e1.length > 0 →
        parseValue (.mk f s j rg c no e1 sq st) false = .error err) := by
  intro f s j rg c no e1 e2 sq st
  refine ⟨rfl, ?_, ?_, ?_⟩
  · intro m hm
    unfold parseValue at hm
    simp only [ParseTermT.negateOpts, ParseTermT.field, ParseTermT.strValue,
               ParseTermT.jqValue, ParseTermT.regexValue, ParseTermT.count] at hm
    cases no with
    | none =>
      simp only [] at hm
      cases hm
      exact ⟨none, rfl, rfl⟩
    | some o =>
      simp only [] at hm
      cases hno : negateOptsF (.mk f s j rg c (some o) e1 sq st) with
      | error e => rw [hno] at hm; cases hm
      | ok opts => rw [hno] at hm; cases hm; exact ⟨some opts, rfl, rfl⟩
  · intro ex hex
    unfold parseValue
    simp only [ParseTermT.extract, ParseTermT.field, ParseTermT.strValue,
               ParseTermT.jqValue, ParseTermT.regexValue, ParseTermT.count] at hex ⊢
    rw [hex]
  · intro err herr hlen
    unfold parseValue
    simp only [ParseTermT.extract, ParseTermT.field, ParseTermT.strValue,
               ParseTermT.jqValue, ParseTermT.regexValue, ParseTermT.count]
    rw [if_pos hlen, herr]

/-- An extract binding whose name starts with a digit (invalid). -/
def badExtract : ParseExtractT := { name := "1bad", jqValue := ".x", regexValue := "" }

/-- Witness for C10: with an invalid extract name, the negate side still
succeeds with no extract entries while the positive side fails
`ErrExtractName`. -/
theorem c10_witness :
    (parseValue (.mk "f" "v" "" "" 0 none [badExtract] none none) true =
      parseValue (.mk "f" "v" "" "" 0 none [] none none) true) ∧
    (∃ opts, ({ matchF := { fields := [] },
                negate := { fields := [{ field := "f", strValue := "v", jqValue := "",
                                         regexValue := "", count := 0, negateOpts := none,
                                         extract := [] }] },
                window := 0 } : MatcherT).negate.fields =
        [{ field := "f", strValue := "v", jqValue := "", regexValue := "", count := 0,
           negateOpts := opts, extract := [] }] ∧
      ({ matchF := { fields := [] },
         negate := { fields := [{ field := "f", strValue := "v", jqValue := "",
                                  regexValue := "", count := 0, negateOpts := none,
                                  extract := [] }] },
         window := 0 } : MatcherT).matchF.fields = []) ∧
    (parseValue (.mk "f" "v" "" "" 0 none [badExtract] none none) false =
      .error .extractName) := by
  have h := c10_negate_discards_extracts "f" "v" "" "" 0 none [badExtract] [] none none
  exact ⟨h.1, h.2.1 _ (by decide), h.2.2.2 .extractName (by decide) (by decide)⟩
